import Mathlib

/-!
Verification of the daily CI status reporter
(`.github/workflows/tools/daily-status.py`).

The Python source is shallowly embedded: pure dataclasses become Lean
structures, the `Counter`-based tally becomes an insertion-ordered
association list, exceptions (`ValueError`, `AttributeError`,
`AssertionError`) become an explicit error type threaded through
`Except`, datetimes are modelled as integers (epoch time; string
rendering of a timestamp is its integer rendering), and the network
fetch loops become functions over lists of already-fetched raw records.
-/

set_option autoImplicit false
set_option maxRecDepth 100000

namespace DailyStatusTool

/-- Python exceptions raised by the script, as an explicit error type.
`attributeError n` models access to an undefined class attribute `n`;
`valueError` models `raise ValueError(...)` (the message's `!r` repr
quoting is not reproduced: the offending string is carried verbatim);
`assertionError` models a failed `assert`. -/
inductive PyErr where
  | valueError (msg : String)
  | attributeError (name : String)
  | assertionError
  deriving DecidableEq, Repr

/-- The four-valued outcome taxonomy (`class Outcome(Enum)`).
Note the enum defines a member `ERROR`; there is no member `ERRROR`. -/
inductive Outcome where
  | PASS
  | FAIL
  | ERROR
  | INCOMPLETE
  deriving DecidableEq, Repr

/-- The `value` of each enum member. -/
def Outcome.value : Outcome → String
  | .PASS => "PASSED"
  | .FAIL => "FAILED"
  | .ERROR => "ERRORED"
  | .INCOMPLETE => "INCOMPLETE"

/-- `Outcome.from_conclusion`.  The `timed_out` branch of the source reads
`return cls.ERRROR`: `ERRROR` is not a member of the enum, so in Python this
line raises `AttributeError` instead of returning `Outcome.ERROR`. -/
def Outcome.from_conclusion (concl : String) : Except PyErr Outcome :=
  if concl = "success" then .ok .PASS
  else if concl = "failure" then .ok .FAIL
  else if concl = "timed_out" then .error (.attributeError "ERRROR")
  else if concl ∈ ["neutral", "action_required", "cancelled", "skipped", "stale"] then
    .ok .INCOMPLETE
  else .error (.valueError ("Unknown GitHub workflow conclusion: " ++ concl))

/-- `Outcome.from_appveyor_status`. -/
def Outcome.from_appveyor_status (status : String) : Except PyErr Outcome :=
  if status = "success" then .ok .PASS
  else if status = "failed" then .ok .FAIL
  else if status = "cancelled" then .ok .INCOMPLETE
  else .error (.valueError ("Unknown Appveyor status: " ++ status))

/-- The conclusion strings recognized by `Outcome.from_conclusion`. -/
def githubConclusions : List String :=
  ["success", "failure", "timed_out", "neutral", "action_required",
   "cancelled", "skipped", "stale"]

/-- The status strings recognized by `Outcome.from_appveyor_status`. -/
def appveyorStatuses : List String := ["success", "failed", "cancelled"]

/-- C1: the claim says `timed_out` maps to the Error outcome.  In the code the
`timed_out` branch evaluates the undefined enum attribute `ERRROR` and so
raises `AttributeError` rather than returning `Outcome.ERROR`; every other
entry of the fixed table behaves as claimed
(`success`→Pass, `failure`→Fail, `neutral`/`action_required`/`cancelled`/
`skipped`/`stale`→Incomplete). -/
theorem c1_timed_out_raises_attribute_error :
    Outcome.from_conclusion "timed_out" = .error (.attributeError "ERRROR")
      ∧ Outcome.from_conclusion "timed_out" ≠ .ok .ERROR
      ∧ Outcome.from_conclusion "success" = .ok .PASS
      ∧ Outcome.from_conclusion "failure" = .ok .FAIL
      ∧ Outcome.from_conclusion "neutral" = .ok .INCOMPLETE
      ∧ Outcome.from_conclusion "action_required" = .ok .INCOMPLETE
      ∧ Outcome.from_conclusion "cancelled" = .ok .INCOMPLETE
      ∧ Outcome.from_conclusion "skipped" = .ok .INCOMPLETE
      ∧ Outcome.from_conclusion "stale" = .ok .INCOMPLETE := by
  refine ⟨rfl, ?_, rfl, rfl, rfl, rfl, rfl, rfl, rfl⟩
  intro h
  rw [show Outcome.from_conclusion "timed_out"
      = Except.error (PyErr.attributeError "ERRROR") from rfl] at h
  exact Except.noConfusion h

/-- C2: every status string outside the recognized vocabulary of its source
fails classification with the unrecognized-status `ValueError` rather than
returning any outcome: the hosted-workflow classifier rejects any string
outside `githubConclusions`, and the third-party classifier rejects any
string outside `appveyorStatuses`. -/
theorem c2_unrecognized_status_fails (s t : String)
    (hs : s ∉ githubConclusions) (ht : t ∉ appveyorStatuses) :
    Outcome.from_conclusion s =
        .error (.valueError ("Unknown GitHub workflow conclusion: " ++ s))
      ∧ Outcome.from_appveyor_status t =
        .error (.valueError ("Unknown Appveyor status: " ++ t)) := by
  simp only [githubConclusions, appveyorStatuses, List.mem_cons,
    List.not_mem_nil, or_false, not_or] at hs ht
  obtain ⟨h1, h2, h3, h4, h5, h6, h7, h8⟩ := hs
  obtain ⟨g1, g2, g3⟩ := ht
  constructor
  · simp [Outcome.from_conclusion, h1, h2, h3, h4, h5, h6, h7, h8]
  · simp [Outcome.from_appveyor_status, g1, g2, g3]

/-- C2 witness: the string "banana" is recognized by neither classifier and
both reject it with the unrecognized-status error. -/
theorem c2_unrecognized_status_fails_witness :
    ("banana" ∉ githubConclusions ∧ "banana" ∉ appveyorStatuses)
      ∧ Outcome.from_conclusion "banana" =
          .error (.valueError ("Unknown GitHub workflow conclusion: " ++ "banana"))
      ∧ Outcome.from_appveyor_status "banana" =
          .error (.valueError ("Unknown Appveyor status: " ++ "banana")) := by
  refine ⟨⟨by decide, by decide⟩, ?_⟩
  exact c2_unrecognized_status_fails "banana" "banana" (by decide) (by decide)

/-! ### The tally (`collections.Counter`)

A `Counter[Outcome]` is modelled as an insertion-ordered association list:
Python dicts preserve insertion order, `Counter(iterable)` counts elements in
first-seen order, and `Counter.update` adds counts in place, appending keys
it has not seen yet in the argument's order. -/

/-- Insertion-ordered `Counter[Outcome]`: keys in insertion order with
their (positive) counts. -/
abbrev Counter := List (Outcome × Nat)

/-- Add `n` to the count of key `k`, appending the key if absent
(Python `counter[k] += n` as performed by `Counter.update`). -/
def addCount : Counter → Outcome → Nat → Counter
  | [], k, n => [(k, n)]
  | (k', m) :: rest, k, n =>
    if k' = k then (k', m + n) :: rest else (k', m) :: addCount rest k n

/-- `c.update(d)` for two Counters. -/
def updateCounter (c d : Counter) : Counter :=
  d.foldl (fun acc kn => addCount acc kn.1 kn.2) c

/-- `Counter(iterable)`: count the elements of `l` in first-seen order. -/
def counterOf (l : List Outcome) : Counter :=
  l.foldl (fun acc k => addCount acc k 1) []

/-- The total count a Counter assigns to key `k`. -/
def countOf (c : Counter) (k : Outcome) : Nat :=
  (c.map fun p => if p.1 = k then p.2 else 0).sum

/-! ### Data model (the dataclasses) -/

/-- `WINDOW`, `WORKFLOW_REPO`, `WORKFLOWS`, `CLIENTS_REPO`,
`APPVEYOR_PROJECT` module constants. -/
def WORKFLOW_REPO : String := "datalad/git-annex"

/-- The fixed list of monitored workflow files. -/
def WORKFLOWS : List String :=
  ["build-ubuntu.yaml", "build-macos.yaml", "build-windows.yaml"]

/-- Repository holding client result branches. -/
def CLIENTS_REPO : String := "datalad/git-annex-ci-client-jobs"

/-- Appveyor project slug. -/
def APPVEYOR_PROJECT : String := "mih/git-annex"

/-- `xml.sax.saxutils.escape` on one character. -/
def escapeChar (ch : Char) : String :=
  if ch = '&' then "&amp;"
  else if ch = '<' then "&lt;"
  else if ch = '>' then "&gt;"
  else String.singleton ch

/-- `xml.sax.saxutils.escape`: escape `&`, `<`, `>`. -/
def escape (s : String) : String :=
  String.join (s.toList.map escapeChar)

/-- `Outcome.as_html`. -/
def Outcome.as_html : Outcome → String
  | .PASS => "<span style=\"color: green\">PASS</span>"
  | .FAIL => "<span style=\"color: red\">FAIL</span>"
  | .ERROR => "<span style=\"color: red; text-weight: bold\">ERROR</span>"
  | .INCOMPLETE => "<span style=\"color: grey\">&#x2014;</span>"

/-- `JobStatus` dataclass (timestamps are modelled as integers). -/
structure JobStatus where
  name : String
  url : String
  timestamp : Int
  outcome : Outcome
  deriving DecidableEq, Repr

/-- `JobStatus.as_html`. -/
def JobStatus.as_html (j : JobStatus) : String :=
  j.outcome.as_html ++ " <a href=\"" ++ j.url ++ "\">" ++ escape j.name
    ++ "</a> " ++ toString j.timestamp

/-- `WorkflowStatus` dataclass. -/
structure WorkflowStatus where
  file : String
  name : String
  build_id : Nat
  url : String
  timestamp : Int
  outcome : Outcome
  jobs : List JobStatus
  deriving DecidableEq, Repr

/-- `WorkflowStatus.get_summary`: a Counter of the *jobs'* outcomes. -/
def WorkflowStatus.get_summary (w : WorkflowStatus) : Counter :=
  counterOf (w.jobs.map JobStatus.outcome)

/-- `WorkflowStatus.as_html`. -/
def WorkflowStatus.as_html (w : WorkflowStatus) : String :=
  "<p>" ++ w.outcome.as_html ++ " <a href=\"" ++ w.url ++ "\">" ++ escape w.name
    ++ " #" ++ toString w.build_id ++ "</a> " ++ toString w.timestamp
    ++ "</p>\n<ul>\n"
    ++ String.join (w.jobs.map fun j => "<li>" ++ j.as_html ++ "</li>\n")
    ++ "</ul>\n"

/-- `ClientStatus` dataclass; the `tests` dict is an insertion-ordered
association list of test name to outcome. -/
structure ClientStatus where
  client_id : String
  build_id : Nat
  timestamp : Int
  artifact_url : String
  tests : List (String × Outcome)
  deriving DecidableEq, Repr

/-- `ClientStatus.get_summary`: a Counter of the tests' outcomes. -/
def ClientStatus.get_summary (c : ClientStatus) : Counter :=
  counterOf (c.tests.map Prod.snd)

/-- `ClientStatus.as_html`. -/
def ClientStatus.as_html (c : ClientStatus) : String :=
  "<p>" ++ escape c.client_id ++ " #" ++ toString c.build_id
    ++ " [<a href=\"" ++ c.artifact_url ++ "\">download logs</a>] "
    ++ toString c.timestamp ++ "</p><ul>\n"
    ++ String.join (c.tests.map fun p =>
        "<li>" ++ p.2.as_html ++ " " ++ escape p.1 ++ "</li>\n")
    ++ "</ul>"

/-- `ResultProcessError` dataclass. -/
structure ResultProcessError where
  client_id : String
  build_id : Nat
  timestamp : Int
  url : String
  deriving DecidableEq, Repr

/-- `ResultProcessError.get_summary`: `Counter([Outcome.ERROR])`. -/
def ResultProcessError.get_summary (_ : ResultProcessError) : Counter :=
  counterOf [.ERROR]

/-- `ResultProcessError.as_html`. -/
def ResultProcessError.as_html (e : ResultProcessError) : String :=
  Outcome.ERROR.as_html ++ " processing results for " ++ escape e.client_id
    ++ " #" ++ toString e.build_id ++ " [<a href=\"" ++ e.url ++ "\">logs</a>] "
    ++ toString e.timestamp

/-- An element of `DailyStatus.client_runs`
(Python type `ClientStatus | ResultProcessError`). -/
inductive ClientEntry where
  | run (c : ClientStatus)
  | err (e : ResultProcessError)
  deriving DecidableEq, Repr

/-- The `client_id` attribute, common to both variants. -/
def ClientEntry.client_id : ClientEntry → String
  | .run c => c.client_id
  | .err e => e.client_id

/-- Dispatched `get_summary`. -/
def ClientEntry.get_summary : ClientEntry → Counter
  | .run c => c.get_summary
  | .err e => e.get_summary

/-- Dispatched `as_html`. -/
def ClientEntry.as_html : ClientEntry → String
  | .run c => c.as_html
  | .err e => e.as_html

/-- `AppveyorJob` dataclass. -/
structure AppveyorJob where
  build_id : Nat
  id : String
  name : String
  outcome : Outcome
  deriving DecidableEq, Repr

/-- `AppveyorJob.url` property. -/
def AppveyorJob.url (j : AppveyorJob) : String :=
  "https://ci.appveyor.com/project/" ++ APPVEYOR_PROJECT ++ "/builds/"
    ++ toString j.build_id ++ "/job/" ++ j.id

/-- `AppveyorJob.as_html`. -/
def AppveyorJob.as_html (j : AppveyorJob) : String :=
  j.outcome.as_html ++ " <a href=\"" ++ j.url ++ "\">" ++ escape j.name ++ "</a>"

/-- `AppveyorBuild` dataclass. -/
structure AppveyorBuild where
  id : Nat
  version : String
  timestamp : Int
  outcome : Outcome
  jobs : List AppveyorJob
  deriving DecidableEq, Repr

/-- `AppveyorBuild.url` property. -/
def AppveyorBuild.url (b : AppveyorBuild) : String :=
  "https://ci.appveyor.com/project/" ++ APPVEYOR_PROJECT ++ "/builds/"
    ++ toString b.id

/-- `AppveyorBuild.get_summary`: a Counter of the jobs' outcomes. -/
def AppveyorBuild.get_summary (b : AppveyorBuild) : Counter :=
  counterOf (b.jobs.map AppveyorJob.outcome)

/-- `AppveyorBuild.as_html`. -/
def AppveyorBuild.as_html (b : AppveyorBuild) : String :=
  "<p>" ++ b.outcome.as_html ++ " <a href=\"" ++ b.url ++ "\">" ++ b.version
    ++ "</a> " ++ toString b.timestamp ++ "</p>\n<ul>\n"
    ++ String.join (b.jobs.map fun j => "<li>" ++ j.as_html ++ "</li>\n")
    ++ "</ul>\n"

/-- `DailyStatus` dataclass (the Report). -/
structure DailyStatus where
  github_runs : List WorkflowStatus
  client_runs : List ClientEntry
  all_clients : Finset String
  appveyor_builds : List AppveyorBuild

/-! ### The renderer and aggregator (`DailyStatus.get_subject_body`) -/

/-- The GitHub section's list items (the first branch of the body loop). -/
def renderGithubSection (runs : List WorkflowStatus) : String :=
  if runs.isEmpty then "<li>[no runs]</li>\n"
  else String.join (runs.map fun w => "<li>" ++ w.as_html ++ "</li>\n")

/-- The `id` attribute string computed for each client entry: the loop
threads a `seen` set and gives ` id="<client_id>"` to an entry exactly when
its client id has not been seen yet. -/
def clientIdAttrs : List ClientEntry → List String → List String
  | [], _ => []
  | c :: rest, seen =>
    if c.client_id ∈ seen then
      "" :: clientIdAttrs rest seen
    else
      (" id=\"" ++ c.client_id ++ "\"") :: clientIdAttrs rest (c.client_id :: seen)

/-- The client section's list items, threading the `seen` set exactly as the
source loop does. -/
def renderClientItems : List ClientEntry → List String → String
  | [], _ => ""
  | c :: rest, seen =>
    if c.client_id ∈ seen then
      "<li>" ++ c.as_html ++ "</li>\n" ++ renderClientItems rest seen
    else
      "<li" ++ (" id=\"" ++ c.client_id ++ "\"") ++ ">" ++ c.as_html ++ "</li>\n"
        ++ renderClientItems rest (c.client_id :: seen)

/-- The Local Clients section (second branch of the body loop). -/
def renderClientsSection (cs : List ClientEntry) : String :=
  if cs.isEmpty then "<li>[no runs]</li>\n" else renderClientItems cs []

/-- The Appveyor section (third branch of the body loop). -/
def renderAppveyorSection (bs : List AppveyorBuild) : String :=
  if bs.isEmpty then "<li>[no builds]</li>\n"
  else String.join (bs.map fun b => "<li>" ++ b.as_html ++ "</li>\n")

/-- The `qtys` Counter accumulated by `get_subject_body`: github job
summaries first, then client summaries, then Appveyor build summaries. -/
def computeQtys (ds : DailyStatus) : Counter :=
  let q1 := ds.github_runs.foldl (fun a r => updateCounter a r.get_summary) []
  let q2 := ds.client_runs.foldl (fun a c => updateCounter a c.get_summary) q1
  ds.appveyor_builds.foldl (fun a b => updateCounter a b.get_summary) q2

/-- `len(missing_workflows) + len(missing_clients)` from
`get_subject_body`. -/
def absentCount (ds : DailyStatus) : Nat :=
  (WORKFLOWS.toFinset \ (ds.github_runs.map WorkflowStatus.file).toFinset).card
    + (ds.all_clients \ (ds.client_runs.map ClientEntry.client_id).toFinset).card

/-- The comma-joined per-outcome counts part of the subject. -/
def subjectCounts (ds : DailyStatus) : String :=
  WORKFLOW_REPO ++ " daily summary: "
    ++ String.intercalate ", "
        ((computeQtys ds).map fun p => toString p.2 ++ " " ++ p.1.value)

/-- `DailyStatus.get_subject_body`. -/
def DailyStatus.get_subject_body (ds : DailyStatus) : String × String :=
  let inner :=
    "<ul>\n<li><p>GitHub:</p>\n<ul>\n" ++ renderGithubSection ds.github_runs
      ++ "</ul>\n</li>\n<li><p>Local Clients:</p>\n<ul>\n"
      ++ renderClientsSection ds.client_runs
      ++ "</ul>\n</li>\n<li><p>Appveyor Builds:</p>\n<ul>\n"
      ++ renderAppveyorSection ds.appveyor_builds
      ++ "</ul>\n</li>\n</ul>"
  let subject :=
    if computeQtys ds ≠ [] then
      subjectCounts ds
        ++ (if absentCount ds ≠ 0 then
              ", " ++ toString (absentCount ds) ++ " ABSENT"
            else "")
    else WORKFLOW_REPO ++ " daily summary: NOTHING"
  let body :=
    "<!DOCTYPE html>\n<html lang=\"en\">\n<head>\n"
      ++ "<meta http-equiv=\"Content-Type\" content=\"text/html; charset=utf-8\">\n"
      ++ "<title>" ++ subject ++ "</title>\n</head>\n<body>\n"
      ++ inner ++ "\n</body>\n</html>"
  (subject, body)

/-! ### Counter lemmas -/

/-- Counting in the empty Counter. -/
theorem countOf_nil (k : Outcome) : countOf [] k = 0 := rfl

/-- Counting in a cons Counter. -/
theorem countOf_cons (p : Outcome × Nat) (c : Counter) (k : Outcome) :
    countOf (p :: c) k = (if p.1 = k then p.2 else 0) + countOf c k := by
  simp [countOf]

/-- `addCount` adds `n` to key `k` and leaves other keys alone. -/
theorem countOf_addCount (c : Counter) (k : Outcome) (n : Nat) (x : Outcome) :
    countOf (addCount c k n) x = countOf c x + (if k = x then n else 0) := by
  induction c with
  | nil =>
    simp only [addCount, countOf, List.map_cons, List.map_nil, List.sum_cons,
      List.sum_nil]
    omega
  | cons p rest ih =>
    obtain ⟨k1, m⟩ := p
    by_cases h : k1 = k
    · subst h
      by_cases h2 : k1 = x <;>
        simp [addCount, countOf_cons, h2] <;> omega
    · simp only [addCount, if_neg h, countOf_cons, ih]
      omega

/-- `updateCounter` adds the counts of the two Counters. -/
theorem countOf_updateCounter (c d : Counter) (x : Outcome) :
    countOf (updateCounter c d) x = countOf c x + countOf d x := by
  induction d generalizing c with
  | nil => simp [updateCounter, countOf]
  | cons p d ih =>
    simp only [updateCounter, List.foldl_cons] at *
    rw [ih (addCount c p.1 p.2), countOf_addCount, countOf_cons]
    omega

/-- Auxiliary form of `countOf_counterOf` with an accumulator. -/
theorem countOf_counterOf_go (l : List Outcome) (c : Counter) (x : Outcome) :
    countOf (l.foldl (fun acc k => addCount acc k 1) c) x
      = countOf c x + l.count x := by
  induction l generalizing c with
  | nil => simp
  | cons o l ih =>
    simp only [List.foldl_cons]
    rw [ih, countOf_addCount]
    by_cases h : o = x <;> simp [h, List.count_cons] <;> omega

/-- `Counter(iterable)` counts exactly the list's occurrences. -/
theorem countOf_counterOf (l : List Outcome) (x : Outcome) :
    countOf (counterOf l) x = l.count x := by
  simpa [counterOf, countOf_nil] using countOf_counterOf_go l [] x

/-- Folding `updateCounter` over mapped summaries sums their counts. -/
theorem countOf_foldl_update {α : Type} (g : α → Counter) (xs : List α)
    (c : Counter) (x : Outcome) :
    countOf (xs.foldl (fun a y => updateCounter a (g y)) c) x
      = countOf c x + (xs.map fun y => countOf (g y) x).sum := by
  induction xs generalizing c with
  | nil => simp
  | cons y xs ih =>
    simp only [List.foldl_cons, List.map_cons, List.sum_cons]
    rw [ih, countOf_updateCounter]
    omega

/-- Summing per-list counts equals counting in the flattened list. -/
theorem sum_count_eq_count_flatten {α : Type} {β : Type} [BEq β]
    (f : α → List β) (xs : List α) (a : β) :
    (xs.map fun y => (f y).count a).sum = ((xs.map f).flatten).count a := by
  induction xs with
  | nil => simp
  | cons y xs ih => simp [List.count_append, ih]

/-- Folding `updateCounter` with all-empty summaries is the identity. -/
theorem foldl_update_nil {α : Type} (g : α → Counter) (xs : List α)
    (c : Counter) (h : ∀ x ∈ xs, g x = []) :
    xs.foldl (fun a y => updateCounter a (g y)) c = c := by
  induction xs generalizing c with
  | nil => rfl
  | cons y xs ih =>
    simp only [List.foldl_cons]
    rw [h y (by simp)]
    exact ih c fun x hx => h x (by simp [hx])

/-! ### Claim C3: the tally counts job-level outcomes -/

/-- The per-test outcome list of a `ClientStatus` entry (none for a
`ResultProcessError`). -/
def ClientEntry.tests? : ClientEntry → Option (List (String × Outcome))
  | .run c => some c.tests
  | .err _ => none

/-- Whether a client entry is a `ResultProcessError`. -/
def ClientEntry.isErr : ClientEntry → Bool
  | .run _ => false
  | .err _ => true

/-- Summary count of a `ClientStatus` entry. -/
theorem countOf_entry_run (c : ClientStatus) (oc : Outcome) :
    countOf (ClientEntry.run c).get_summary oc = (c.tests.map Prod.snd).count oc := by
  simp [ClientEntry.get_summary, ClientStatus.get_summary, countOf_counterOf]

/-- Summary count of a `ResultProcessError` entry: one synthetic Error. -/
theorem countOf_entry_err (e : ResultProcessError) (oc : Outcome) :
    countOf (ClientEntry.err e).get_summary oc = if oc = .ERROR then 1 else 0 := by
  by_cases h : oc = .ERROR <;>
    simp [ClientEntry.get_summary, ResultProcessError.get_summary,
      countOf_counterOf, List.count_cons, h]

/-- Summary count of a `WorkflowStatus`: its jobs' outcomes. -/
theorem countOf_wf_summary (r : WorkflowStatus) (oc : Outcome) :
    countOf r.get_summary oc = (r.jobs.map JobStatus.outcome).count oc := by
  simp [WorkflowStatus.get_summary, countOf_counterOf]

/-- Summary count of an `AppveyorBuild`: its jobs' outcomes. -/
theorem countOf_av_summary (b : AppveyorBuild) (oc : Outcome) :
    countOf b.get_summary oc = (b.jobs.map AppveyorJob.outcome).count oc := by
  simp [AppveyorBuild.get_summary, countOf_counterOf]

/-- Client summaries contribute each test outcome once and one synthetic
Error per `ResultProcessError`. -/
theorem client_summary_sum (cs : List ClientEntry) (oc : Outcome) :
    (cs.map fun e => countOf e.get_summary oc).sum
      = ((cs.filterMap ClientEntry.tests?).flatten.map Prod.snd).count oc
        + (if oc = .ERROR then cs.countP ClientEntry.isErr else 0) := by
  induction cs with
  | nil => simp
  | cons e cs ih =>
    rw [List.map_cons, List.sum_cons, ih]
    cases e with
    | run c =>
      simp only [countOf_entry_run, List.filterMap_cons, ClientEntry.tests?,
        List.flatten_cons, List.map_append, List.count_append,
        List.countP_cons, ClientEntry.isErr]
      simp only [Bool.false_eq_true, if_false, Nat.add_zero]
      omega
    | err e' =>
      simp only [countOf_entry_err, List.filterMap_cons, ClientEntry.tests?,
        List.countP_cons, ClientEntry.isErr, if_true]
      by_cases h : oc = .ERROR <;> simp [h] <;> omega

/-- The built scenario of C3: one hosted run, run-level outcome Pass, with
one passing and one failing job. -/
def c3Scenario : DailyStatus where
  github_runs :=
    [{ file := "build-ubuntu.yaml", name := "Build git-annex on Ubuntu",
       build_id := 1, url := "https://example.test/run/1", timestamp := 0,
       outcome := .PASS,
       jobs :=
        [{ name := "build", url := "https://example.test/job/1", timestamp := 0,
           outcome := .PASS },
         { name := "test", url := "https://example.test/job/2", timestamp := 0,
           outcome := .FAIL }] }]
  client_runs := []
  all_clients := ∅
  appveyor_builds := []

/-- C3: for every Report the `qtys` tally counts, per outcome, the
`JobStatus`es flattened across all `WorkflowStatus`es, the test outcomes of
all `ClientStatus`es, exactly one synthetic Error per `ResultProcessError`,
and the `AppveyorJob`s flattened across all `AppveyorBuild`s — run-level
outcomes are never counted; in particular the run with run-level Pass and
jobs Pass/Fail yields the tally `{Pass: 1, Fail: 1}`. -/
theorem c3_tally_counts_jobs_not_runs :
    (∀ (ds : DailyStatus) (oc : Outcome),
      countOf (computeQtys ds) oc
        = ((ds.github_runs.map fun r => r.jobs.map JobStatus.outcome).flatten).count oc
          + ((ds.client_runs.filterMap ClientEntry.tests?).flatten.map Prod.snd).count oc
          + (if oc = .ERROR then ds.client_runs.countP ClientEntry.isErr else 0)
          + ((ds.appveyor_builds.map fun b => b.jobs.map AppveyorJob.outcome).flatten).count oc)
    ∧ computeQtys c3Scenario = [(.PASS, 1), (.FAIL, 1)] := by
  constructor
  · intro ds oc
    simp only [computeQtys]
    rw [countOf_foldl_update, countOf_foldl_update, countOf_foldl_update,
      client_summary_sum]
    simp only [countOf_wf_summary, countOf_av_summary, countOf_nil,
      sum_count_eq_count_flatten]
    omega
  · rfl

/-! ### Claims C8 and C9: the NOTHING subject -/

/-- The Report with no run or build from any source and no known client. -/
def emptyStatus : DailyStatus where
  github_runs := []
  client_runs := []
  all_clients := ∅
  appveyor_builds := []

/-- C8: for the Report whose workflow-run, client-run and third-party-build
sequences are all empty, the subject is exactly
`datalad/git-annex daily summary: NOTHING`, each of the three body sections
renders its placeholder marker (`[no runs]` / `[no runs]` / `[no builds]`),
and the body is exactly the empty-state document containing them. -/
theorem c8_empty_report_nothing :
    (emptyStatus.get_subject_body).1 = "datalad/git-annex daily summary: NOTHING"
      ∧ renderGithubSection emptyStatus.github_runs = "<li>[no runs]</li>\n"
      ∧ renderClientsSection emptyStatus.client_runs = "<li>[no runs]</li>\n"
      ∧ renderAppveyorSection emptyStatus.appveyor_builds = "<li>[no builds]</li>\n"
      ∧ (emptyStatus.get_subject_body).2 =
          "<!DOCTYPE html>\n<html lang=\"en\">\n<head>\n"
            ++ "<meta http-equiv=\"Content-Type\" content=\"text/html; charset=utf-8\">\n"
            ++ "<title>datalad/git-annex daily summary: NOTHING</title>\n</head>\n<body>\n"
            ++ "<ul>\n<li><p>GitHub:</p>\n<ul>\n<li>[no runs]</li>\n</ul>\n</li>\n"
            ++ "<li><p>Local Clients:</p>\n<ul>\n<li>[no runs]</li>\n</ul>\n</li>\n"
            ++ "<li><p>Appveyor Builds:</p>\n<ul>\n<li>[no builds]</li>\n</ul>\n</li>\n</ul>"
            ++ "\n</body>\n</html>" := by
  refine ⟨rfl, rfl, rfl, rfl, rfl⟩

/-- C9: the NOTHING-versus-counts decision depends only on the tally, not on
whether runs exist: if every workflow run has an empty job list, every client
entry is a `ClientStatus` with an empty test mapping (no `ResultProcessError`
at all), and every Appveyor build has an empty job list, the subject is the
NOTHING subject with no absence count appended, whatever runs are rendered in
the body and whatever clients or workflows are absent. -/
theorem c9_nothing_depends_only_on_tally (ds : DailyStatus)
    (hg : ∀ r ∈ ds.github_runs, r.jobs = [])
    (hc : ∀ e ∈ ds.client_runs, ∃ c : ClientStatus, e = .run c ∧ c.tests = [])
    (ha : ∀ b ∈ ds.appveyor_builds, b.jobs = []) :
    (ds.get_subject_body).1 = WORKFLOW_REPO ++ " daily summary: NOTHING" := by
  have hq : computeQtys ds = [] := by
    have hA : ∀ b ∈ ds.appveyor_builds, b.get_summary = [] := fun b hb => by
      simp [AppveyorBuild.get_summary, ha b hb, counterOf]
    have hC : ∀ e ∈ ds.client_runs, e.get_summary = [] := fun e he => by
      obtain ⟨c, rfl, ht⟩ := hc e he
      simp [ClientEntry.get_summary, ClientStatus.get_summary, ht, counterOf]
    have hG : ∀ r ∈ ds.github_runs, r.get_summary = [] := fun r hr => by
      simp [WorkflowStatus.get_summary, hg r hr, counterOf]
    simp only [computeQtys]
    rw [foldl_update_nil _ _ _ hA, foldl_update_nil _ _ _ hC,
      foldl_update_nil _ _ _ hG]
  simp [DailyStatus.get_subject_body, hq]

/-- A Report where all three sources produced runs, but every run is empty of
jobs and tests, and a known client is absent. -/
def c9Witness : DailyStatus where
  github_runs :=
    [{ file := "build-ubuntu.yaml", name := "Build git-annex on Ubuntu",
       build_id := 7, url := "https://example.test/run/7", timestamp := 0,
       outcome := .PASS, jobs := [] }]
  client_runs :=
    [.run { client_id := "alpha", build_id := 3, timestamp := 0,
            artifact_url := "https://example.test/artifact/3", tests := [] }]
  all_clients := {"beta"}
  appveyor_builds :=
    [{ id := 9, version := "1.0.9", timestamp := 0, outcome := .INCOMPLETE,
       jobs := [] }]

/-- C9 witness: a Report with one (job-less) run from each source and an
absent known client still gets the bare NOTHING subject. -/
theorem c9_nothing_depends_only_on_tally_witness :
    ((∀ r ∈ c9Witness.github_runs, r.jobs = [])
      ∧ (∀ e ∈ c9Witness.client_runs, ∃ c : ClientStatus, e = .run c ∧ c.tests = [])
      ∧ (∀ b ∈ c9Witness.appveyor_builds, b.jobs = []))
    ∧ (c9Witness.get_subject_body).1 = WORKFLOW_REPO ++ " daily summary: NOTHING" := by
  refine ⟨⟨?_, ?_, ?_⟩, ?_⟩
  · intro r hr
    simp only [c9Witness, List.mem_singleton] at hr
    subst hr; rfl
  · intro e he
    simp only [c9Witness, List.mem_singleton] at he
    subst he
    exact ⟨_, rfl, rfl⟩
  · intro b hb
    simp only [c9Witness, List.mem_singleton] at hb
    subst hb; rfl
  · exact c9_nothing_depends_only_on_tally c9Witness
      (fun r hr => by simp only [c9Witness, List.mem_singleton] at hr; subst hr; rfl)
      (fun e he => by
        simp only [c9Witness, List.mem_singleton] at he
        subst he; exact ⟨_, rfl, rfl⟩)
      (fun b hb => by simp only [c9Witness, List.mem_singleton] at hb; subst hb; rfl)

/-! ### Claim C4: the absence count -/

/-- The missing-workflows set difference is the set of workflow files
referenced by no run. -/
theorem missing_workflows_eq (runs : List WorkflowStatus) :
    WORKFLOWS.toFinset \ (runs.map WorkflowStatus.file).toFinset
      = WORKFLOWS.toFinset.filter fun w => ∀ r ∈ runs, r.file ≠ w := by
  ext w
  simp only [Finset.mem_sdiff, Finset.mem_filter, List.mem_toFinset,
    List.mem_map, not_exists]
  constructor
  · rintro ⟨hw, hno⟩
    exact ⟨hw, fun r hr heq => hno r ⟨hr, heq⟩⟩
  · rintro ⟨hw, hall⟩
    exact ⟨hw, fun r ⟨hr, heq⟩ => hall r hr heq⟩

/-- The missing-clients set difference is the set of known client ids
referenced by no client entry. -/
theorem missing_clients_eq (A : Finset String) (cs : List ClientEntry) :
    A \ (cs.map ClientEntry.client_id).toFinset
      = A.filter fun x => ∀ e ∈ cs, e.client_id ≠ x := by
  ext x
  simp only [Finset.mem_sdiff, Finset.mem_filter, List.mem_toFinset,
    List.mem_map, not_exists]
  constructor
  · rintro ⟨hx, hno⟩
    exact ⟨hx, fun e he heq => hno e ⟨he, heq⟩⟩
  · rintro ⟨hx, hall⟩
    exact ⟨hx, fun e ⟨he, heq⟩ => hall e he heq⟩

/-- C4: when the tally is nonzero the subject is the per-outcome counts with
the absence count appended exactly when it is nonzero; that count equals the
number of configured workflow files referenced by no run plus the number of
known client ids referenced by no client entry; and adding to the known-client
set one id referenced by no client entry raises the count by exactly one. -/
theorem c4_absent_count (ds : DailyStatus) (c : String)
    (h1 : computeQtys ds ≠ [])
    (h2 : c ∉ ds.all_clients)
    (h3 : ∀ e ∈ ds.client_runs, e.client_id ≠ c) :
    (ds.get_subject_body).1
        = subjectCounts ds
          ++ (if absentCount ds ≠ 0 then
                ", " ++ toString (absentCount ds) ++ " ABSENT"
              else "")
      ∧ absentCount ds
          = (WORKFLOWS.toFinset.filter fun w => ∀ r ∈ ds.github_runs, r.file ≠ w).card
            + (ds.all_clients.filter fun x => ∀ e ∈ ds.client_runs, e.client_id ≠ x).card
      ∧ absentCount { ds with all_clients := insert c ds.all_clients }
          = absentCount ds + 1 := by
  refine ⟨?_, ?_, ?_⟩
  · simp [DailyStatus.get_subject_body, h1]
  · rw [absentCount, missing_workflows_eq, missing_clients_eq]
  · have hcB : c ∉ (ds.client_runs.map ClientEntry.client_id).toFinset := by
      simp only [List.mem_toFinset, List.mem_map, not_exists]
      exact fun e ⟨he, heq⟩ => h3 e he heq
    have hcAB : c ∉ ds.all_clients \ (ds.client_runs.map ClientEntry.client_id).toFinset :=
      fun hmem => h2 (Finset.mem_sdiff.mp hmem).1
    simp only [absentCount]
    rw [Finset.insert_sdiff_of_not_mem _ hcB, Finset.card_insert_of_not_mem hcAB]
    omega

/-- A Report with one passing job for the ubuntu workflow and known clients
`{alpha, beta}`, neither of which reported. -/
def c4Witness : DailyStatus where
  github_runs :=
    [{ file := "build-ubuntu.yaml", name := "Build git-annex on Ubuntu",
       build_id := 21, url := "https://example.test/run/21", timestamp := 0,
       outcome := .PASS,
       jobs :=
        [{ name := "build", url := "https://example.test/job/21", timestamp := 0,
           outcome := .PASS }] }]
  client_runs := []
  all_clients := {"alpha"}
  appveyor_builds := []

/-- C4 witness: with `beta` added as a second absent known client the absence
count goes from 3 (two missing workflows, one missing client) to 4, and the
subject carries the appended count. -/
theorem c4_absent_count_witness :
    (computeQtys c4Witness ≠ [] ∧ "beta" ∉ c4Witness.all_clients
      ∧ (∀ e ∈ c4Witness.client_runs, e.client_id ≠ "beta"))
    ∧ (c4Witness.get_subject_body).1
        = subjectCounts c4Witness
          ++ (if absentCount c4Witness ≠ 0 then
                ", " ++ toString (absentCount c4Witness) ++ " ABSENT"
              else "")
    ∧ absentCount c4Witness
        = (WORKFLOWS.toFinset.filter
            fun w => ∀ r ∈ c4Witness.github_runs, r.file ≠ w).card
          + (c4Witness.all_clients.filter
              fun x => ∀ e ∈ c4Witness.client_runs, e.client_id ≠ x).card
    ∧ absentCount { c4Witness with all_clients := insert "beta" c4Witness.all_clients }
        = absentCount c4Witness + 1 := by
  refine ⟨⟨?_, ?_, ?_⟩, ?_⟩
  · decide
  · decide
  · intro e he
    simp [c4Witness] at he
  · exact c4_absent_count c4Witness "beta" (by decide) (by decide)
      (fun e he => by simp [c4Witness] at he)

/-! ### Claims C5 and C10: the per-client anchor deduplication -/

/-- Joining a cons of strings. -/
theorem string_join_cons (s : String) (l : List String) :
    String.join (s :: l) = s ++ String.join l := by
  apply String.ext
  simp [String.join_eq]

/-- A computed anchor attribute is never the empty string. -/
theorem anchor_ne_empty (x : String) : " id=\"" ++ x ++ "\"" ≠ "" := by
  intro h
  have hlen := congrArg String.length h
  rw [String.length_append, String.length_append] at hlen
  have h5 : (" id=\"" : String).length = 5 := rfl
  have h0 : ("" : String).length = 0 := rfl
  omega

/-- The id attribute computed for position `i`: empty exactly when the
entry's client id is in `seen` or occurs among the earlier entries. -/
theorem clientIdAttrs_getElem (cs : List ClientEntry) (seen : List String)
    (i : Nat) (e : ClientEntry) (he : cs[i]? = some e) :
    (clientIdAttrs cs seen)[i]?
      = some (if e.client_id ∈ seen
                ∨ e.client_id ∈ (cs.take i).map ClientEntry.client_id
              then "" else " id=\"" ++ e.client_id ++ "\"") := by
  induction cs generalizing seen i with
  | nil => simp at he
  | cons c rest ih =>
    cases i with
    | zero =>
      simp only [List.getElem?_cons_zero, Option.some.injEq] at he
      subst he
      by_cases h : c.client_id ∈ seen <;> simp [clientIdAttrs, h]
    | succ n =>
      simp only [List.getElem?_cons_succ] at he
      by_cases h : c.client_id ∈ seen
      · rw [show clientIdAttrs (c :: rest) seen = "" :: clientIdAttrs rest seen by
            simp [clientIdAttrs, h]]
        rw [List.getElem?_cons_succ, ih seen n he]
        refine congrArg some (if_congr ?_ rfl rfl)
        simp only [List.take_succ_cons, List.map_cons, List.mem_cons]
        constructor
        · rintro (hs | ht)
          · exact Or.inl hs
          · exact Or.inr (Or.inr ht)
        · rintro (hs | hc | ht)
          · exact Or.inl hs
          · exact Or.inl (by rw [hc]; exact h)
          · exact Or.inr ht
      · rw [show clientIdAttrs (c :: rest) seen
              = (" id=\"" ++ c.client_id ++ "\"")
                  :: clientIdAttrs rest (c.client_id :: seen) by
            simp [clientIdAttrs, h]]
        rw [List.getElem?_cons_succ, ih (c.client_id :: seen) n he]
        refine congrArg some (if_congr ?_ rfl rfl)
        simp only [List.take_succ_cons, List.map_cons, List.mem_cons]
        tauto

/-- The rendered client items are the entries zipped with their computed id
attributes. -/
theorem renderClientItems_eq (cs : List ClientEntry) (seen : List String) :
    renderClientItems cs seen
      = String.join (List.zipWith
          (fun attr e => "<li" ++ attr ++ ">" ++ e.as_html ++ "</li>\n")
          (clientIdAttrs cs seen) cs) := by
  induction cs generalizing seen with
  | nil => rfl
  | cons c rest ih =>
    by_cases h : c.client_id ∈ seen <;>
      simp only [renderClientItems, clientIdAttrs, h, if_true, if_false,
        List.zipWith_cons_cons, string_join_cons, ih] <;>
      simp [String.append_assoc]

/-- An element of `cs.take i` sits at an index `k < i` of `cs`. -/
theorem mem_take_getElem? {α : Type} (cs : List α) (i : Nat) (a : α)
    (h : a ∈ cs.take i) : ∃ k : Nat, k < i ∧ cs[k]? = some a := by
  obtain ⟨k, hk⟩ := List.mem_iff_getElem?.mp h
  rw [List.getElem?_take] at hk
  by_cases hki : k < i
  · exact ⟨k, hki, by simpa [hki] using hk⟩
  · simp [hki] at hk

/-- C5: if two `ClientStatus` runs share a client id, the later one's
rendered `<li>` carries no id attribute; the earlier one carries the
anchor whenever no earlier entry uses that client id; and the rendered
client items are exactly the entries zipped with these attributes. -/
theorem c5_anchor_only_first_run (cs : List ClientEntry) (i j : Nat)
    (ci cj : ClientStatus) (hij : i < j)
    (hi : cs[i]? = some (.run ci)) (hj : cs[j]? = some (.run cj))
    (hcid : ci.client_id = cj.client_id) :
    (clientIdAttrs cs [])[j]? = some ""
      ∧ ((∀ k e, k < i → cs[k]? = some e → e.client_id ≠ ci.client_id) →
          (clientIdAttrs cs [])[i]? = some (" id=\"" ++ ci.client_id ++ "\""))
      ∧ renderClientItems cs []
          = String.join (List.zipWith
              (fun attr e => "<li" ++ attr ++ ">" ++ e.as_html ++ "</li>\n")
              (clientIdAttrs cs []) cs) := by
  refine ⟨?_, ?_, renderClientItems_eq cs []⟩
  · have ht : (cs.take j)[i]? = some (ClientEntry.run ci) := by
      rw [List.getElem?_take]
      simp [hij, hi]
    have hmem : (ClientEntry.run cj).client_id
        ∈ (cs.take j).map ClientEntry.client_id :=
      List.mem_map.mpr ⟨.run ci, List.getElem?_mem ht,
        by simp [ClientEntry.client_id, hcid]⟩
    rw [clientIdAttrs_getElem cs [] j _ hj, if_pos (Or.inr hmem)]
  · intro hfirst
    have hcond : ¬ ((ClientEntry.run ci).client_id ∈ ([] : List String)
        ∨ (ClientEntry.run ci).client_id
            ∈ (cs.take i).map ClientEntry.client_id) := by
      rintro (h0 | hmem)
      · simp at h0
      · obtain ⟨e, he, heq⟩ := List.mem_map.mp hmem
        obtain ⟨k, hki, hk⟩ := mem_take_getElem? cs i e he
        exact hfirst k e hki hk heq
    rw [clientIdAttrs_getElem cs [] i _ hi, if_neg hcond]
    rfl

/-- The first client run of the C5 witness list. -/
def c5RunA : ClientStatus where
  client_id := "gamma"
  build_id := 1
  timestamp := 0
  artifact_url := "https://example.test/a/1"
  tests := []

/-- The second client run of the C5 witness list, same client id. -/
def c5RunB : ClientStatus where
  client_id := "gamma"
  build_id := 2
  timestamp := 1
  artifact_url := "https://example.test/a/2"
  tests := []

/-- Two runs from client `gamma`. -/
def c5Witness : List ClientEntry := [.run c5RunA, .run c5RunB]

/-- C5 witness theorem: on the two-run list the later duplicate renders with
an empty id attribute and the first carries the `gamma` anchor. -/
theorem c5_anchor_only_first_run_witness :
    ((0 : Nat) < 1
      ∧ c5Witness[0]? = some (.run c5RunA)
      ∧ c5Witness[1]? = some (.run c5RunB)
      ∧ c5RunA.client_id = c5RunB.client_id)
    ∧ (clientIdAttrs c5Witness [])[1]? = some ""
    ∧ (clientIdAttrs c5Witness [])[0]?
        = some (" id=\"" ++ c5RunA.client_id ++ "\"") := by
  refine ⟨⟨Nat.zero_lt_one, rfl, rfl, rfl⟩, ?_, ?_⟩
  · exact (c5_anchor_only_first_run c5Witness 0 1 c5RunA c5RunB
      Nat.zero_lt_one rfl rfl rfl).1
  · exact (c5_anchor_only_first_run c5Witness 0 1 c5RunA c5RunB
      Nat.zero_lt_one rfl rfl rfl).2.1
      (fun k e hk _ => absurd hk (Nat.not_lt_zero k))

/-- C10: anchor deduplication is shared across `ClientStatus` and
`ResultProcessError` entries: a rendered client entry gets the empty id
attribute exactly when an earlier entry (of either kind) has the same client
id, so the anchored entry for a client id is precisely the first entry
carrying it; and the rendered client items are the entries zipped with these
attributes. -/
theorem c10_anchor_dedup_shared (cs : List ClientEntry) (i : Nat)
    (e : ClientEntry) (he : cs[i]? = some e) :
    ((clientIdAttrs cs [])[i]? = some ""
        ↔ ∃ k e', k < i ∧ cs[k]? = some e' ∧ e'.client_id = e.client_id)
      ∧ ((clientIdAttrs cs [])[i]? = some ""
          ∨ (clientIdAttrs cs [])[i]? = some (" id=\"" ++ e.client_id ++ "\""))
      ∧ renderClientItems cs []
          = String.join (List.zipWith
              (fun attr e => "<li" ++ attr ++ ">" ++ e.as_html ++ "</li>\n")
              (clientIdAttrs cs []) cs) := by
  have hcond : (e.client_id ∈ ([] : List String)
        ∨ e.client_id ∈ (cs.take i).map ClientEntry.client_id)
      ↔ ∃ k e', k < i ∧ cs[k]? = some e' ∧ e'.client_id = e.client_id := by
    constructor
    · rintro (h0 | hmem)
      · simp at h0
      · obtain ⟨e', he', heq⟩ := List.mem_map.mp hmem
        obtain ⟨k, hki, hk⟩ := mem_take_getElem? cs i e' he'
        exact ⟨k, e', hki, hk, heq⟩
    · rintro ⟨k, e', hki, hk, heq⟩
      refine Or.inr (List.mem_map.mpr ⟨e', ?_, heq⟩)
      have ht : (cs.take i)[k]? = some e' := by
        rw [List.getElem?_take]
        simp [hki, hk]
      exact List.getElem?_mem ht
  rw [clientIdAttrs_getElem cs [] i _ he]
  refine ⟨?_, ?_, renderClientItems_eq cs []⟩
  · constructor
    · intro hsome
      by_cases hP : (e.client_id ∈ ([] : List String)
          ∨ e.client_id ∈ (cs.take i).map ClientEntry.client_id)
      · exact hcond.mp hP
      · rw [if_neg hP] at hsome
        exact absurd (Option.some.inj hsome) (anchor_ne_empty e.client_id)
    · intro hex
      rw [if_pos (hcond.mpr hex)]
  · by_cases hP : (e.client_id ∈ ([] : List String)
        ∨ e.client_id ∈ (cs.take i).map ClientEntry.client_id)
    · exact Or.inl (by rw [if_pos hP])
    · exact Or.inr (by rw [if_neg hP])

/-- A `ResultProcessError` for client `delta`. -/
def c10ErrA : ResultProcessError where
  client_id := "delta"
  build_id := 5
  timestamp := 0
  url := "https://example.test/r/5"

/-- A later `ClientStatus` run for the same client `delta`. -/
def c10RunB : ClientStatus where
  client_id := "delta"
  build_id := 6
  timestamp := 1
  artifact_url := "https://example.test/a/6"
  tests := []

/-- The C10 witness list: the error precedes the run. -/
def c10Witness : List ClientEntry := [.err c10ErrA, .run c10RunB]

/-- C10 witness theorem: the run preceded by the same-client error renders
without an anchor, while the error, being first, has one. -/
theorem c10_anchor_dedup_shared_witness :
    c10Witness[1]? = some (.run c10RunB)
      ∧ (clientIdAttrs c10Witness [])[1]? = some ""
      ∧ (clientIdAttrs c10Witness [])[0]? = some " id=\"delta\"" := by
  refine ⟨rfl, ?_, by rfl⟩
  exact (c10_anchor_dedup_shared c10Witness 1 (.run c10RunB) rfl).1.mpr
    ⟨0, .err c10ErrA, Nat.zero_lt_one, rfl, rfl⟩

/-! ### The Client-Result Fetcher (claim C6)

The branch name is matched against `result-(.+)-(\d+)` with `re.fullmatch`.
With a greedy `(.+)`, the match succeeds exactly when, after the literal
`result-` prefix, the substring following the *last* hyphen is a nonempty
run of digits and something nonempty (and newline-free, since `.` does not
match a newline) precedes that hyphen. -/

/-- `int()` on a digit string. -/
def natOfDigits (ds : List Char) : Nat :=
  ds.foldl (fun n c => n * 10 + (c.toNat - 48)) 0

/-- Split `cs` as `(.+)-(\d+)` with a greedy first group: the digit group is
the all-digit nonempty suffix after the last hyphen, and the nonempty rest
precedes it. -/
def splitLastHyphen (cs : List Char) : Option (List Char × List Char) :=
  let r := cs.reverse
  let ds := r.takeWhile Char.isDigit
  match r.dropWhile Char.isDigit with
  | '-' :: before =>
    if ds.isEmpty ∨ before.isEmpty then none
    else some (before.reverse, ds.reverse)
  | _ => none

/-- `re.fullmatch(r"result-(.+)-(\d+)", branch)`, returning the two groups
(the client id and its parsed build number). -/
def parseResultBranch (s : String) : Option (String × Nat) :=
  let cs := s.toList
  if cs.take 7 = "result-".toList then
    match splitLastHyphen (cs.drop 7) with
    | some (before, digits) =>
      if '\n' ∈ before then none
      else some (String.mk before, natOfDigits digits)
    | none => none
  else none

/-- One entry of the downloaded result artifact's zip archive; `content` is
the integer parsed from the file's text. -/
structure ZipEntry where
  name : String
  content : Int
  deriving DecidableEq, Repr

/-- `get_client_test_outcomes`: scan the archive entries whose name ends in
`.rc`; the stripped name maps to Pass when the return code is 0 and Fail
otherwise. -/
def get_client_test_outcomes (entries : List ZipEntry) : List (String × Outcome) :=
  entries.filterMap fun p =>
    if p.name.endsWith ".rc" then
      some (p.name.dropRight 3, if p.content = 0 then Outcome.PASS else Outcome.FAIL)
    else none

/-- An artifact attached to a handle-result run, with its archive already
fetched. -/
structure Artifact where
  id : Nat
  entries : List ZipEntry
  deriving DecidableEq, Repr

/-- One raw run of the handle-result workflow as returned by the API (the
fields the client loop of `main` reads). -/
structure ClientApiRun where
  status : String
  created_at : Int
  head_branch : String
  conclusion : String
  html_url : String
  check_suite_id : Nat
  artifacts : List Artifact
  deriving DecidableEq, Repr

/-- The artifact page URL built for a `ClientStatus`. -/
def artifactUrl (run : ClientApiRun) (a : Artifact) : String :=
  "https://github.com/" ++ CLIENTS_REPO ++ "/suites/"
    ++ toString run.check_suite_id ++ "/artifacts/" ++ toString a.id

/-- The client loop of `main`: skip runs that are not completed, break at the
first run created at or before the cutoff, require the branch to parse
(`assert m`), classify the run conclusion, and build a `ClientStatus` (with
exactly one artifact) on Pass or a `ResultProcessError` otherwise. -/
def processClientRuns (cutoff : Int) : List ClientApiRun → Except PyErr (List ClientEntry)
  | [] => .ok []
  | run :: rest =>
    if run.status ≠ "completed" then processClientRuns cutoff rest
    else if run.created_at ≤ cutoff then .ok []
    else
      match parseResultBranch run.head_branch with
      | none => .error .assertionError
      | some (cid, bid) =>
        match Outcome.from_conclusion run.conclusion with
        | .error e => .error e
        | .ok o =>
          if o = .PASS then
            match run.artifacts with
            | [a] =>
              match processClientRuns cutoff rest with
              | .error e => .error e
              | .ok tail =>
                .ok (ClientEntry.run
                  { client_id := cid, build_id := bid,
                    timestamp := run.created_at,
                    artifact_url := artifactUrl run a,
                    tests := get_client_test_outcomes a.entries } :: tail)
            | _ => .error (.valueError "expected exactly one artifact")
          else
            match processClientRuns cutoff rest with
            | .error e => .error e
            | .ok tail =>
              .ok (ClientEntry.err
                { client_id := cid, build_id := bid,
                  timestamp := run.created_at,
                  url := run.html_url } :: tail)

/-- C6: a retained handle-result run whose conclusion classifies as anything
but Pass contributes a `ResultProcessError` (never a `ClientStatus`) carrying
the client id and build number parsed from the `result-<id>-<n>` branch name;
in particular branch `result-alpha-42` parses to `("alpha", 42)` and
conclusion `failure` classifies as Fail. -/
theorem c6_non_pass_yields_client_error (cutoff : Int) (run : ClientApiRun)
    (rest : List ClientApiRun) (cid : String) (bid : Nat) (o : Outcome)
    (hst : run.status = "completed") (hdt : cutoff < run.created_at)
    (hbr : parseResultBranch run.head_branch = some (cid, bid))
    (hcl : Outcome.from_conclusion run.conclusion = .ok o) (hnp : o ≠ .PASS) :
    processClientRuns cutoff (run :: rest)
        = (processClientRuns cutoff rest).map
            (fun tail => ClientEntry.err
              { client_id := cid, build_id := bid,
                timestamp := run.created_at, url := run.html_url } :: tail)
      ∧ parseResultBranch "result-alpha-42" = some ("alpha", 42)
      ∧ Outcome.from_conclusion "failure" = .ok .FAIL := by
  refine ⟨?_, rfl, rfl⟩
  have hle : ¬ run.created_at ≤ cutoff := not_le.mpr hdt
  simp only [processClientRuns, hst, ne_eq, not_true_eq_false, if_false,
    hle, hbr, hcl, hnp]
  cases h : processClientRuns cutoff rest <;> simp [h, Except.map]

/-- The C6 witness run: branch `result-alpha-42`, conclusion `failure`. -/
def c6Run : ClientApiRun where
  status := "completed"
  created_at := 100
  head_branch := "result-alpha-42"
  conclusion := "failure"
  html_url := "https://example.test/run/c6"
  check_suite_id := 11
  artifacts := []

/-- C6 witness: processing the single failed run for branch
`result-alpha-42` yields exactly one `ResultProcessError` for client
`alpha`, build 42. -/
theorem c6_non_pass_yields_client_error_witness :
    (c6Run.status = "completed" ∧ (0 : Int) < c6Run.created_at
      ∧ parseResultBranch c6Run.head_branch = some ("alpha", 42)
      ∧ Outcome.from_conclusion c6Run.conclusion = .ok .FAIL
      ∧ Outcome.FAIL ≠ .PASS)
    ∧ processClientRuns 0 [c6Run]
        = .ok [ClientEntry.err
            { client_id := "alpha", build_id := 42,
              timestamp := c6Run.created_at, url := c6Run.html_url }] := by
  refine ⟨⟨rfl, by decide, rfl, rfl, by decide⟩, ?_⟩
  rw [(c6_non_pass_yields_client_error 0 c6Run [] "alpha" 42 .FAIL rfl
    (by decide) rfl rfl (by decide)).1]
  rfl

/-! ### The Third-Party-Build Fetcher (claim C7) -/

/-- One job of an Appveyor build-detail response. -/
structure AppveyorApiJob where
  jobId : String
  name : String
  status : String
  deriving DecidableEq, Repr

/-- One raw Appveyor build from the history stream, with the jobs of its
detail response. -/
structure AppveyorApiBuild where
  buildId : Nat
  version : String
  status : String
  started : Int
  finished : Option Int
  jobs : List AppveyorApiJob
  deriving DecidableEq, Repr

/-- Classify the jobs of a build-detail response in listing order. -/
def buildJobs (bid : Nat) : List AppveyorApiJob → Except PyErr (List AppveyorJob)
  | [] => .ok []
  | j :: js =>
    match Outcome.from_appveyor_status j.status with
    | .error e => .error e
    | .ok oc =>
      match buildJobs bid js with
      | .error e => .error e
      | .ok tail =>
        .ok ({ build_id := bid, id := j.jobId, name := j.name,
               outcome := oc } :: tail)

/-- The Appveyor loop of `main` over the (descending-time) history stream:
skip builds without a finish timestamp, break at the first finish timestamp
at or before the cutoff, and construct an `AppveyorBuild` per retained
build. -/
def processAppveyorBuilds (cutoff : Int) :
    List AppveyorApiBuild → Except PyErr (List AppveyorBuild)
  | [] => .ok []
  | b :: rest =>
    match b.finished with
    | none => processAppveyorBuilds cutoff rest
    | some fin =>
      if fin ≤ cutoff then .ok []
      else
        match Outcome.from_appveyor_status b.status with
        | .error e => .error e
        | .ok oc =>
          match buildJobs b.buildId b.jobs with
          | .error e => .error e
          | .ok js =>
            match processAppveyorBuilds cutoff rest with
            | .error e => .error e
            | .ok tail =>
              .ok ({ id := b.buildId, version := b.version,
                     timestamp := b.started, outcome := oc,
                     jobs := js } :: tail)

/-- Reaching a build finished at or before the cutoff stops the scan: the
builds at and past it never contribute. -/
theorem processAppveyor_stop (cutoff : Int) (pre post : List AppveyorApiBuild)
    (b : AppveyorApiBuild) (tb : Int)
    (hb : b.finished = some tb) (htb : tb ≤ cutoff) :
    processAppveyorBuilds cutoff (pre ++ b :: post)
      = processAppveyorBuilds cutoff pre := by
  induction pre with
  | nil => simp [processAppveyorBuilds, hb, htb]
  | cons x pre ih =>
    simp only [List.cons_append, processAppveyorBuilds]
    cases hx : x.finished with
    | none => exact ih
    | some t =>
      by_cases hcut : t ≤ cutoff
      · simp [hcut]
      · simp only [if_neg hcut]
        have ih2 : processAppveyorBuilds cutoff (pre.append (b :: post))
            = processAppveyorBuilds cutoff pre := ih
        rw [ih2]

/-- When every scanned build finished after the cutoff, the produced builds
are exactly the scanned builds having a finish timestamp, in order. -/
theorem processAppveyor_ids (cutoff : Int) (pre : List AppveyorApiBuild)
    (hpre : ∀ x ∈ pre, ∀ t : Int, x.finished = some t → cutoff < t) :
    ∀ res, processAppveyorBuilds cutoff pre = .ok res →
      res.map AppveyorBuild.id
        = (pre.filter fun x => x.finished.isSome).map AppveyorApiBuild.buildId := by
  induction pre with
  | nil =>
    intro res h
    simp only [processAppveyorBuilds, Except.ok.injEq] at h
    subst h
    simp
  | cons x pre ih =>
    intro res h
    simp only [processAppveyorBuilds] at h
    have ih2 := ih fun y hy t hyt => hpre y (List.mem_cons_of_mem x hy) t hyt
    cases hx : x.finished with
    | none =>
      rw [hx] at h
      rw [List.filter_cons_of_neg (by simp [hx])]
      exact ih2 res h
    | some t =>
      simp only [hx] at h
      have hct : ¬ t ≤ cutoff :=
        not_le.mpr (hpre x (List.mem_cons_self x pre) t hx)
      rw [if_neg hct] at h
      cases hoc : Outcome.from_appveyor_status x.status with
      | error e => simp only [hoc] at h; simp at h
      | ok oc =>
        simp only [hoc] at h
        cases hjs : buildJobs x.buildId x.jobs with
        | error e => simp only [hjs] at h; simp at h
        | ok js =>
          simp only [hjs] at h
          cases hrec : processAppveyorBuilds cutoff pre with
          | error e => simp only [hrec] at h; simp at h
          | ok tail =>
            simp only [hrec, Except.ok.injEq] at h
            subst h
            rw [List.filter_cons_of_pos (by simp [hx])]
            simp only [List.map_cons]
            rw [ih2 tail hrec]

/-- C7: scanning the third-party history in order, builds without a finish
timestamp are skipped, the first build finished at or before the cutoff
stops the scan entirely (neither it nor anything after it is output), and
every build scanned before that point finishing after the cutoff is
retained, in order. -/
theorem c7_cutoff_stops_scan (cutoff : Int) (pre post : List AppveyorApiBuild)
    (b : AppveyorApiBuild) (tb : Int)
    (hb : b.finished = some tb) (htb : tb ≤ cutoff)
    (hpre : ∀ x ∈ pre, ∀ t : Int, x.finished = some t → cutoff < t) :
    processAppveyorBuilds cutoff (pre ++ b :: post)
        = processAppveyorBuilds cutoff pre
      ∧ ∀ res, processAppveyorBuilds cutoff pre = .ok res →
          res.map AppveyorBuild.id
            = (pre.filter fun x => x.finished.isSome).map AppveyorApiBuild.buildId :=
  ⟨processAppveyor_stop cutoff pre post b tb hb htb,
   processAppveyor_ids cutoff pre hpre⟩

/-- A retained build: finished after the cutoff of 100. -/
def c7Kept : AppveyorApiBuild where
  buildId := 101
  version := "1.0.101"
  status := "success"
  started := 90
  finished := some 150
  jobs := []

/-- A build with no finish timestamp: skipped. -/
def c7NoFinish : AppveyorApiBuild where
  buildId := 102
  version := "1.0.102"
  status := "failed"
  started := 80
  finished := none
  jobs := []

/-- The first build finished at or before the cutoff: stops the scan. -/
def c7Stale : AppveyorApiBuild where
  buildId := 103
  version := "1.0.103"
  status := "success"
  started := 10
  finished := some 50
  jobs := []

/-- A build after the stop point: never scanned. -/
def c7Post : AppveyorApiBuild where
  buildId := 104
  version := "1.0.104"
  status := "success"
  started := 5
  finished := some 40
  jobs := []

/-- C7 witness: with cutoff 100, the stale build stops the scan, the
unfinished build is skipped, and only build 101 is retained. -/
theorem c7_cutoff_stops_scan_witness :
    (c7Stale.finished = some 50 ∧ (50 : Int) ≤ 100
      ∧ (∀ x ∈ [c7Kept, c7NoFinish], ∀ t : Int,
          x.finished = some t → (100 : Int) < t))
    ∧ processAppveyorBuilds 100 ([c7Kept, c7NoFinish] ++ c7Stale :: [c7Post])
        = processAppveyorBuilds 100 [c7Kept, c7NoFinish]
    ∧ ∀ res, processAppveyorBuilds 100 [c7Kept, c7NoFinish] = .ok res →
        res.map AppveyorBuild.id
          = ([c7Kept, c7NoFinish].filter
              fun x => x.finished.isSome).map AppveyorApiBuild.buildId := by
  have hpre : ∀ x ∈ [c7Kept, c7NoFinish], ∀ t : Int,
      x.finished = some t → (100 : Int) < t := by
    intro x hx t hxt
    simp only [List.mem_cons, List.not_mem_nil, or_false] at hx
    rcases hx with rfl | rfl
    · have ht : t = 150 := by
        have := hxt
        simp only [c7Kept] at this
        exact (Option.some.inj this).symm
      omega
    · exact absurd hxt (by simp [c7NoFinish])
  refine ⟨⟨rfl, by decide, hpre⟩, ?_⟩
  exact c7_cutoff_stops_scan 100 [c7Kept, c7NoFinish] [c7Post] c7Stale 50
    rfl (by decide) hpre

end DailyStatusTool
